import Mathlib

/-!
# Verification of the law-match-agent retrieval core

A shallow embedding, in Lean 4, of the semantic-search and citation-validation
core of the `law-match-agent` repository:

* `HuggingFaceAPI.search_similar_cases` and `HuggingFaceAPI._search_in_dataframe`
  (`src/api/huggingface_api.py`): keyword prefiltering, embedding cache,
  cosine-similarity ranking, multi-source fusion with deduplication.
* `LawAPI.verify_case_number` and `LawAPI.validate_legal_citation`
  (`src/api/law_api.py`): case-number verification with local table and AI
  fallback, and the statute-citation regex parser.

Modelling conventions:

* Python strings are `List Char`; the Python substring test `a in b` is
  decidable infix containment (`infixOfB`); `str.lower()` is mapped
  `Char.toLower` (ASCII lowering; Korean characters are unaffected, as in
  Python).
* The regex classes `\s` and `\d` are modelled as ASCII whitespace and ASCII
  decimal digits; `.` excludes `'\n'` exactly as in Python `re` without
  `DOTALL`.
* Embedding vectors are an arbitrary type `V`; the sentence encoder is an
  abstract function `Text → V` (`None` encoder is `Option.none`), and
  `sklearn`'s `cosine_similarity` is an abstract function `V → V → ℚ`.
  Similarity scores are rationals.
* `numpy.argsort` is modelled as an ascending sort of index/score pairs
  (`List.insertionSort`); the default `argsort` is unstable, so its tie
  order is unspecified — see `argsortAsc` for why the model's tie order is
  only relied on for two-element inputs.  `pandas.DataFrame.sample(n)` is
  an abstract sampling oracle, a fresh one per call, constrained only by
  `SampleSpec` (it returns `n` of the rows, in any order).
* Python `dict` state (`self.embeddings_cache`) is threaded explicitly as an
  association list; dictionaries with heterogeneous value sets
  (`verify_case_number` results) become structures with `Option` fields, where
  a missing key is `none`.
-/

open List in
/-- Python strings are modelled as lists of characters. -/
abbrev Text := List Char

open List (Sublist Perm)

open scoped List

/-- Shorthand turning a string literal into the `List Char` model. -/
def txt (s : String) : Text := s.data

/-- Model of Python `str.lower()` (ASCII lowering, other characters unchanged). -/
def toLowerT (t : Text) : Text := t.map Char.toLower

/-- ASCII whitespace, the model of the regex class `\s` and of the separator
set used by Python `str.split()`. -/
def isWsC (c : Char) : Bool :=
  c = ' ' || c = '\t' || c = '\n' || c = '\r' || c = '\x0b' || c = '\x0c'

/-- Helper for `words`: accumulates the current word (reversed) while scanning. -/
def wordsAux : Text → Text → List Text
  | [], acc => if acc = [] then [] else [acc.reverse]
  | c :: rest, acc =>
    if isWsC c then
      if acc = [] then wordsAux rest [] else acc.reverse :: wordsAux rest []
    else wordsAux rest (c :: acc)

/-- Model of Python `str.split()` with no argument: split on whitespace runs,
dropping empty fragments. -/
def words (t : Text) : List Text := wordsAux t []

/-- One record of a corpus dataframe (`self.df` / `self.curated_df`), with the
fields that `_search_in_dataframe` reads.  The extra enrichment columns of the
curated dataframe (`applicable_laws`, `key_legal_points`, `importance`) are
not modelled: no statement below depends on them. -/
structure Row where
  id : Text
  case_number : Text
  case_name : Text
  court_code : Text
  final_date : Text
  input : Text
  output : Text
  data_type : Text
deriving DecidableEq, Repr

/-- Model of the Python substring test `needle in haystack`. -/
def infixOfB (needle haystack : Text) : Bool := decide (needle <:+: haystack)

/-- The fixed legal-keyword list of `_search_in_dataframe`
(`legal_keywords = ['조', '항', '호', '법', '죄', '형법', '민법', '상법',
'스토킹', '성범죄', '사기']`). -/
def legalKeywords : List Text :=
  [txt "조", txt "항", txt "호", txt "법", txt "죄", txt "형법", txt "민법",
   txt "상법", txt "스토킹", txt "성범죄", txt "사기"]

/-- The keyword score of one candidate row (stage 1 of
`_search_in_dataframe`).  Faithful to the source, including the Python
operator precedence of the legal-keyword test
`if keyword in query_lower and keyword in input_text or keyword in output_text`,
which parses as `(keyword in query_lower and keyword in input_text) or
(keyword in output_text)`. -/
def keywordScore (queryLower : Text) (row : Row) : ℕ :=
  let inputText := toLowerT row.input
  let outputText := toLowerT row.output
  let caseName := toLowerT row.case_name
  let exactScore :=
    if infixOfB queryLower inputText || infixOfB queryLower outputText ||
        infixOfB queryLower caseName then 3 else 0
  let wordScore :=
    ((words queryLower).filter fun w =>
      decide (1 < w.length) &&
        (infixOfB w inputText || infixOfB w outputText)).length
  let legalScore :=
    2 * (legalKeywords.filter fun kw =>
      (infixOfB kw queryLower && infixOfB kw inputText) ||
        infixOfB kw outputText).length
  exactScore + wordScore + legalScore

/-- A small sample row used in scratch checks. -/
def sampleRow : Row where
  id := txt "r"
  case_number := txt "c"
  case_name := txt "n"
  court_code := txt ""
  final_date := txt ""
  input := txt "사기 사건"
  output := txt "x"
  data_type := txt "t"

/-- One entry of the list returned by `_search_in_dataframe` /
`search_similar_cases` (the keys of the Python result dict that the
verification statements touch; the remaining keys are copied verbatim from
the row in the same way as the ones kept here). -/
structure SearchResult where
  case_id : Text
  case_number : Text
  case_name : Text
  court_code : Text
  final_date : Text
  input : Text
  output : Text
  data_type : Text
  similarity : ℚ
  source : Text
  rank : ℕ
deriving DecidableEq, Repr

/-- The source label of the curated dataframe (`"큐레이티드"`). -/
def curatedLabel : Text := txt "큐레이티드"

/-- The source label of the bulk Hugging Face dataframe (`"허깅페이스"`). -/
def bulkLabel : Text := txt "허깅페이스"

/-- The `case_type` → `data_type` token map of `_search_in_dataframe`. -/
def caseTypeMap : List (Text × Text) :=
  [(txt "해석례", txt "해석례_QA"), (txt "판결문", txt "판결문_QA"),
   (txt "결정례", txt "결정례_QA"), (txt "법령", txt "법령_QA")]

/-- Association-list lookup (Python `dict` access / `in` test). -/
def assocLookup {β : Type} (l : List (Text × β)) (k : Text) : Option β :=
  (l.find? fun p => decide (p.1 = k)).map (·.2)

/-- The `case_type` filter applied at the top of `_search_in_dataframe`:
a non-empty filter different from `"전체"` that appears in `case_type_map`
restricts the dataframe to rows whose `data_type` contains the mapped token;
anything else leaves the dataframe unchanged. -/
def caseTypeFilter (df : List Row) (caseType : Option Text) : List Row :=
  match caseType with
  | none => df
  | some c =>
    if c = [] ∨ c = txt "전체" then df
    else
      match assocLookup caseTypeMap c with
      | some tok => df.filter fun row => infixOfB tok row.data_type
      | none => df

/-- Stage 1 of `_search_in_dataframe`: the rows with positive keyword score,
paired with their scores, in dataframe order. -/
def keywordMatchesOf (queryLower : Text) (df : List Row) : List (Row × ℕ) :=
  df.filterMap fun row =>
    let s := keywordScore queryLower row
    if 0 < s then some (row, s) else none

/-- The ordering used by `keyword_matches.sort(key=lambda x: x[1],
reverse=True)`: descending score.  Python `list.sort` is stable, which
`List.insertionSort` with this (total, transitive) relation reproduces. -/
def scoreGE (a b : Row × ℕ) : Prop := b.2 ≤ a.2

instance : DecidableRel scoreGE := fun a b => Nat.decLe b.2 a.2

instance : IsTotal (Row × ℕ) scoreGE := ⟨fun a b => Nat.le_total b.2 a.2⟩

instance : IsTrans (Row × ℕ) scoreGE := ⟨fun _ _ _ h h' => Nat.le_trans h' h⟩

/-- `SampleSpec s` says that `s` is a plausible behaviour of
`pandas.DataFrame.sample`: `s n rows` returns exactly `n` of the rows of
`rows` (in any order, without replacement) whenever `n ≤ rows.length`. -/
def SampleSpec (s : ℕ → List Row → List Row) : Prop :=
  ∀ n rows, n ≤ rows.length → (s n rows).length = n ∧ List.Subperm (s n rows) rows

/-- Stage 2 of `_search_in_dataframe`: select candidate rows.  With at least
one keyword match, the matched rows sorted by descending score, capped at
`3 * top_k`; otherwise the whole dataframe for the curated source and a
random sample of at most 1000 rows for any other source. -/
def selectCandidates (sampler : ℕ → List Row → List Row) (queryLower : Text)
    (df : List Row) (top_k : ℕ) (source : Text) : List Row :=
  let kw := keywordMatchesOf queryLower df
  if kw ≠ [] then ((kw.insertionSort scoreGE).take (top_k * 3)).map (·.1)
  else if source = curatedLabel then df
  else sampler (min 1000 df.length) df

/-- The embedding cache `self.embeddings_cache`, threaded explicitly. -/
abbrev Cache (V : Type) := List (Text × V)

/-- Cache lookup (`cache_key in self.embeddings_cache`). -/
def cacheLookup {V : Type} (c : Cache V) (k : Text) : Option V :=
  (c.find? fun p => decide (p.1 = k)).map (·.2)

/-- The cache key `f"{row['id']}_{row['data_type']}_{source}"`. -/
def cacheKeyOf (row : Row) (source : Text) : Text :=
  row.id ++ '_' :: (row.data_type ++ '_' :: source)

/-- The text that is embedded for a row: `f"{row['input']} {row['output']}"`. -/
def embedTextOf (row : Row) : Text := row.input ++ ' ' :: row.output

/-- Stage 3a of `_search_in_dataframe`: walk the candidate rows, taking each
embedding from the cache when present and otherwise encoding and caching it.
Returns the embeddings in row order, the grown cache, and the list of cache
keys that were freshly encoded during this walk. -/
def collectEmbeddings {V : Type} (encode : Text → V) (source : Text) :
    List Row → Cache V → List V × Cache V × List Text
  | [], cache => ([], cache, [])
  | row :: rest, cache =>
    let key := cacheKeyOf row source
    match cacheLookup cache key with
    | some v =>
      let r := collectEmbeddings encode source rest cache
      (v :: r.1, r.2.1, r.2.2)
    | none =>
      let v := encode (embedTextOf row)
      let r := collectEmbeddings encode source rest ((key, v) :: cache)
      (v :: r.1, r.2.1, key :: r.2.2)

/-- The ordering behind `similarities.argsort()`: ascending similarity on
index/score pairs. -/
def simLE (a b : ℕ × ℚ) : Prop := a.2 ≤ b.2

instance : DecidableRel simLE := fun a b => inferInstanceAs (Decidable (a.2 ≤ b.2))

instance : IsTotal (ℕ × ℚ) simLE := ⟨fun a b => le_total a.2 b.2⟩

instance : IsTrans (ℕ × ℚ) simLE := ⟨fun _ _ _ => le_trans⟩

/-- `similarities.argsort()`: an ascending sort of the index/score pairs.
`numpy`'s default `argsort` (introsort) is documented as unstable, so for
equal scores its order is unspecified; this model fixes one concrete
refinement of that behaviour, the stable ascending order, which coincides
with what `numpy` actually computes on small inputs (its introsort falls
back to insertion sort below 16 elements) and in particular on every
two-element instance used below.  No theorem below relies on the tie order
beyond those two-element instances. -/
def argsortAsc (sims : List ℚ) : List ℕ :=
  (sims.enum.insertionSort simLE).map (·.1)

/-- `similarities.argsort()[-top_k:][::-1]`.  Note the Python slicing quirk:
`[-0:]` is the whole list, so `top_k = 0` keeps every index. -/
def topIndices (sims : List ℚ) (top_k : ℕ) : List ℕ :=
  let a := argsortAsc sims
  (if top_k = 0 then a else a.drop (a.length - top_k)).reverse

/-- The source-dependent minimum-similarity threshold
(`min_similarity = 0.05 if source == "큐레이티드" else 0.1`). -/
def minSimilarity (source : Text) : ℚ :=
  if source = curatedLabel then mkRat 5 100 else mkRat 1 10

/-- Build one result dict from a row. -/
def mkResult (row : Row) (sim : ℚ) (source : Text) (rank : ℕ) : SearchResult where
  case_id := row.id
  case_number := row.case_number
  case_name := row.case_name
  court_code := row.court_code
  final_date := row.final_date
  input := row.input
  output := row.output
  data_type := row.data_type
  similarity := sim
  source := source
  rank := rank

/-- Stage 3b of `_search_in_dataframe`: walk `top_indices` with
`enumerate`, skip candidates under the threshold, and build result dicts.
The rank is `i + 1` for the `enumerate` counter `i`, as in the source (so
ranks can have gaps after a skip). -/
def rankResults (rows : List Row) (sims : List ℚ) (top_k : ℕ) (source : Text) :
    List SearchResult :=
  (topIndices sims top_k).enum.filterMap fun p =>
    match rows.get? p.2, sims.get? p.2 with
    | some row, some s =>
      if s < minSimilarity source then none else some (mkResult row s source (p.1 + 1))
    | _, _ => none

/-- `HuggingFaceAPI._search_in_dataframe`, assembled from the stages above.
Returns the result list, the updated embedding cache, and the cache keys
freshly encoded during the call. -/
def searchInDataframe {V : Type} (enc : Option (Text → V)) (cos : V → V → ℚ)
    (sampler : ℕ → List Row → List Row) (df : List Row) (query : Text)
    (top_k : ℕ) (caseType : Option Text) (source : Text) (cache : Cache V) :
    List SearchResult × Cache V × List Text :=
  match enc with
  | none => ([], cache, [])
  | some encode =>
    if df = [] then ([], cache, [])
    else
      let searchDf := caseTypeFilter df caseType
      if searchDf = [] then ([], cache, [])
      else
        let filtered := selectCandidates sampler (toLowerT query) searchDf top_k source
        let r := collectEmbeddings encode source filtered cache
        if r.1.isEmpty then ([], r.2.1, r.2.2)
        else
          let qv := encode query
          let sims := r.1.map (cos qv)
          (rankResults filtered sims top_k source, r.2.1, r.2.2)

/-- The composite dedup key of `search_similar_cases`:
`case_key = f"{result['case_number']}_{result['case_name']}"`. -/
def caseKey (r : SearchResult) : Text :=
  r.case_number ++ '_' :: r.case_name

/-- The identity pair that the dedup key is meant to encode. -/
def pairOf (r : SearchResult) : Text × Text := (r.case_number, r.case_name)

/-- The dedup loop of `search_similar_cases` (step 3 of the fusion): walk the
concatenated results, keep the first occurrence of each `case_key`, and stop
as soon as `top_k` results have been kept (the Python `break` fires after the
append, so `top_k = 0` still keeps one result when any is available). -/
def fuseLoop (top_k : ℕ) : List SearchResult → List Text → List SearchResult →
    List SearchResult
  | [], _seen, acc => acc
  | r :: rest, seen, acc =>
    if caseKey r ∈ seen then fuseLoop top_k rest seen acc
    else if top_k ≤ (acc ++ [r]).length then acc ++ [r]
    else fuseLoop top_k rest (caseKey r :: seen) (acc ++ [r])

/-- The final rank renumbering of `search_similar_cases`
(`result['rank'] = i + 1`). -/
def renumber (l : List SearchResult) : List SearchResult :=
  l.enum.map fun p => { p.2 with rank := p.1 + 1 }

/-- Steps 3–4 of `search_similar_cases`: dedup, truncate, renumber. -/
def fuseResults (allResults : List SearchResult) (top_k : ℕ) : List SearchResult :=
  renumber (fuseLoop top_k allResults [] [])

/-- The number of results requested from the curated source by
`search_similar_cases`: `top_k // 2 + 1` (Python floor division). -/
def curatedRequestCount (top_k : ℕ) : ℕ := top_k / 2 + 1

/-- `HuggingFaceAPI.search_similar_cases`: query the curated dataframe for
`curatedRequestCount top_k` results, the bulk dataframe for `top_k`, then
fuse with curated-first priority.  An empty dataframe is skipped exactly as
`if not df.empty` does in the source. -/
def searchSimilarCases {V : Type} (enc : Option (Text → V)) (cos : V → V → ℚ)
    (sampler : ℕ → List Row → List Row) (curatedDf bulkDf : List Row)
    (query : Text) (top_k : ℕ) (caseType : Option Text) (cache : Cache V) :
    List SearchResult × Cache V :=
  let step1 :=
    if curatedDf ≠ [] then
      searchInDataframe enc cos sampler curatedDf query (curatedRequestCount top_k)
        caseType curatedLabel cache
    else ([], cache, [])
  let step2 :=
    if bulkDf ≠ [] then
      searchInDataframe enc cos sampler bulkDf query top_k caseType bulkLabel step1.2.1
    else ([], step1.2.1, [])
  (fuseResults (step1.1 ++ step2.1) top_k, step2.2.1)

/-- Result of `LawAPI.verify_case_number`, modelling the Python result dict.
A key that is absent from the dict returned on a given path is `none` here.
The keys `summary`, `main_issue`, `verdict`, `applicable_law`, `keywords`,
`suggestion` and `search_links` are not modelled: no statement below depends
on them, and they never carry a `source` value. -/
structure VerifyResult where
  caseExists : Bool
  title : Option Text
  court : Option Text
  date : Option Text
  case_type : Option Text
  source : Option Text
  message : Option Text
deriving DecidableEq, Repr

/-- The alternation of case-type tokens in the case-number pattern
`^(\d{4})(도|바|노|마|차|러|허|므|두|후|고합|고단|초기|재|전|누|구|나|가|재나|재차|재허|재므|재두|재후|합|단|기|전합|전단|전기|누합|누단|누기|구합|구단|구기|나합|나단|나기|가합|가단|가기)(\d+)$`,
in source order. -/
def caseTypeTokens : List Text :=
  [txt "도", txt "바", txt "노", txt "마", txt "차", txt "러", txt "허",
   txt "므", txt "두", txt "후", txt "고합", txt "고단", txt "초기", txt "재",
   txt "전", txt "누", txt "구", txt "나", txt "가", txt "재나", txt "재차",
   txt "재허", txt "재므", txt "재두", txt "재후", txt "합", txt "단",
   txt "기", txt "전합", txt "전단", txt "전기", txt "누합", txt "누단",
   txt "누기", txt "구합", txt "구단", txt "구기", txt "나합", txt "나단",
   txt "나기", txt "가합", txt "가단", txt "가기"]

/-- Whether a string matches the anchored case-number pattern above: four
ASCII digits, one of the type tokens, then a non-empty run of digits.  The
regex alternation backtracks over the token list, which for this anchored
pattern is exactly an existential over the tokens. -/
def matchCaseNumber (s : Text) : Bool :=
  let year := s.take 4
  let rest := s.drop 4
  decide (year.length = 4) && year.all Char.isDigit &&
    caseTypeTokens.any fun tok =>
      tok.isPrefixOf rest &&
        (let num := rest.drop tok.length
         decide (num ≠ []) && num.all Char.isDigit)

/-- The in-memory `sample_cases` table of `verify_case_number` (titles and
courts as in the source; the unmodelled metadata keys are dropped, see
`VerifyResult`).  None of the entries carries a `source` key. -/
def sampleCases : List (Text × VerifyResult) :=
  [(txt "2019도11772",
    { caseExists := true, title := some (txt "음란물 유포죄 관련 판례"),
      court := some (txt "대법원"), date := some (txt "2019-12-26"),
      case_type := some (txt "형사"), source := none, message := none }),
   (txt "2020도5432",
    { caseExists := true, title := some (txt "전자상거래 사기 판례"),
      court := some (txt "대법원"), date := some (txt "2020-03-15"),
      case_type := some (txt "형사"), source := none, message := none }),
   (txt "2021도3456",
    { caseExists := true, title := some (txt "해킹 관련 판례"),
      court := some (txt "대법원"), date := some (txt "2021-06-20"),
      case_type := some (txt "형사"), source := none, message := none }),
   (txt "2018도9876",
    { caseExists := true, title := some (txt "스토킹 처벌 판례"),
      court := some (txt "대법원"), date := some (txt "2018-11-10"),
      case_type := some (txt "형사"), source := none, message := none }),
   (txt "2022고합57",
    { caseExists := true, title := some (txt "특수강도 사건"),
      court := some (txt "서울중앙지방법원"), date := some (txt "2022-07-07"),
      case_type := some (txt "형사"), source := none, message := none }),
   (txt "2022고단1234",
    { caseExists := true, title := some (txt "사기 사건"),
      court := some (txt "대전지방법원"), date := some (txt "2022-08-15"),
      case_type := some (txt "형사"), source := none, message := none }),
   (txt "2022고합144",
    { caseExists := true, title := some (txt "성폭력 사건"),
      court := some (txt "수원지방법원"), date := some (txt "2022-12-23"),
      case_type := some (txt "형사"), source := none, message := none }),
   (txt "2022고합600",
    { caseExists := true, title := some (txt "마약 사건"),
      court := some (txt "서울중앙지방법원"), date := some (txt "2022-11-15"),
      case_type := some (txt "형사"), source := none, message := none }),
   (txt "2022고합660",
    { caseExists := true, title := some (txt "특수절도 사건"),
      court := some (txt "서울중앙지방법원"), date := some (txt "2024-11-15"),
      case_type := some (txt "형사"), source := none, message := none }),
   (txt "2022고합3692",
    { caseExists := true, title := some (txt "횡령 사건"),
      court := some (txt "서울남부지방법원"), date := some (txt "2024-05-16"),
      case_type := some (txt "형사"), source := none, message := none }),
   (txt "2023고합88",
    { caseExists := true, title := some (txt "살인 사건"),
      court := some (txt "광주지방법원"), date := some (txt "2023-09-12"),
      case_type := some (txt "형사"), source := none, message := none }),
   (txt "2021고합456",
    { caseExists := true, title := some (txt "방화 사건"),
      court := some (txt "부산지방법원"), date := some (txt "2021-10-08"),
      case_type := some (txt "형사"), source := none, message := none }),
   (txt "2020고합789",
    { caseExists := true, title := some (txt "뇌물 사건"),
      court := some (txt "대구지방법원"), date := some (txt "2020-12-18"),
      case_type := some (txt "형사"), source := none, message := none })]

/-- `LawAPI.verify_case_number`.  The external `_search_case_with_ai` call is
an abstract oracle `Text → VerifyResult` (a thrown exception or a parse
failure is an oracle answer with `caseExists = false`).  The second component
reports whether the AI fallback was invoked.  The not-found message is
modelled without the quotation marks around the interpolated case number. -/
def verifyCaseNumber (aiOracle : Text → VerifyResult) (useAiSearch : Bool)
    (caseNumber : Text) : VerifyResult × Bool :=
  if ¬ matchCaseNumber caseNumber then
    ({ caseExists := false, title := none, court := none, date := none,
       case_type := none, source := none,
       message := some (txt "잘못된 판례 번호 형식입니다. (예: 2019도11772)") }, false)
  else
    match assocLookup sampleCases caseNumber with
    | some r => (r, false)
    | none =>
      let notFound : VerifyResult :=
        { caseExists := false, title := none, court := none, date := none,
          case_type := none, source := none,
          message := some (txt "판례 번호 " ++ caseNumber ++
            txt "를 시스템에서 찾을 수 없습니다.") }
      if useAiSearch then
        let ai := aiOracle caseNumber
        if ai.caseExists then (ai, true) else (notFound, true)
      else (notFound, false)

/-- The article-number part of the statute pattern
`^(.+?)\s*제(\d+(?:의\d+)?)조$`, matched against the text following `제`:
a non-empty digit run, an optional `의` + digit run, then the final `조`.
The greedy `\d+` runs and the greedy optional group are modelled by maximal
digit runs, which is exact here because no digit can start the continuation. -/
def parseArticle (t : Text) : Option Text :=
  let d1 := t.takeWhile Char.isDigit
  let r1 := t.dropWhile Char.isDigit
  if d1 = [] then none
  else
    match r1 with
    | c :: r2 =>
      if c = '의' then
        let d2 := r2.takeWhile Char.isDigit
        let r3 := r2.dropWhile Char.isDigit
        if d2 ≠ [] ∧ r3 = ['조'] then some (d1 ++ '의' :: d2) else none
      else if c = '조' ∧ r2 = [] then some d1 else none
    | [] => none

/-- Attempt to match `\s*제(\d+(?:의\d+)?)조$` against the rest of the
citation after a lazy prefix: skip the whitespace run, require `제`, then
`parseArticle` to the end of the string. -/
def trySuffix (r : Text) : Option Text :=
  match r.dropWhile isWsC with
  | c :: t => if c = '제' then parseArticle t else none
  | [] => none

/-- The lazy `(.+?)` loop of the statute pattern: try prefixes of increasing
length (at least one character, never across `'\n'`, which `.` does not
match) and return the first split whose remainder matches `trySuffix`. -/
def lawMatchAux : Text → Text → Option (Text × Text)
  | _pre, [] => none
  | pre, c :: rest =>
    if c = '\n' then none
    else
      match trySuffix rest with
      | some art => some (pre ++ [c], art)
      | none => lawMatchAux (pre ++ [c]) rest

/-- `re.match(r'^(.+?)\s*제(\d+(?:의\d+)?)조$', citation)`: on success,
the captured law name (group 1) and article number (group 2). -/
def lawMatch (s : Text) : Option (Text × Text) := lawMatchAux [] s

/-- The optional court-name prefixes of the precedent-citation pattern. -/
def courtPrefixes : List Text := [txt "대법원", txt "고등법원", txt "지방법원"]

/-- After the optional court prefix: `\s*` then the case-number pattern. -/
def matchAfterCourt (r : Text) : Bool := matchCaseNumber (r.dropWhile isWsC)

/-- Whether a citation matches
`^(대법원|고등법원|지방법원)?\s*(\d{4})(…)(\d+)$`. -/
def matchCaseCitation (s : Text) : Bool :=
  (courtPrefixes.any fun cp => cp.isPrefixOf s && matchAfterCourt (s.drop cp.length)) ||
    matchAfterCourt s

/-- The `type` tag of a `validate_legal_citation` result. -/
inductive CitationType
  | law_article
  | case_number
  | unknown
deriving DecidableEq, Repr

/-- The part of the `validate_legal_citation` result dict that the statements
below touch: its `type` and, for a statute citation, the `law_name` and
`article_number` details.  The `is_valid` flag and the lookup-dependent
detail keys merged by `details.update(article_info)` are not modelled; that
merge cannot change `law_name` or `article_number`, since `get_law_article`
results never carry those keys. -/
structure CitationResult where
  ctype : CitationType
  law_name : Option Text
  article_number : Option Text
deriving DecidableEq, Repr

/-- `LawAPI.validate_legal_citation`: try the statute-article pattern first,
then the precedent-citation pattern, else `unknown`. -/
def validateLegalCitation (citation : Text) : CitationResult :=
  match lawMatch citation with
  | some (nm, art) =>
    { ctype := .law_article, law_name := some nm, article_number := some art }
  | none =>
    if matchCaseCitation citation then
      { ctype := .case_number, law_name := none, article_number := none }
    else
      { ctype := .unknown, law_name := none, article_number := none }

/-- Candidate row for the keyword-scoring check: its output text contains
the legal keyword `법` while its other texts are plain ASCII. -/
def rowC3 : Row where
  id := txt "k1"
  case_number := txt "c1"
  case_name := txt "nn"
  court_code := txt ""
  final_date := txt ""
  input := txt "aa"
  output := txt "q법q"
  data_type := txt "t"

/-- A fused result whose `case_number` itself contains an underscore. -/
def fuseA : SearchResult where
  case_id := txt "a"
  case_number := txt "A_B"
  case_name := txt "C"
  court_code := txt ""
  final_date := txt ""
  input := txt ""
  output := txt ""
  data_type := txt "t"
  similarity := mkRat 9 10
  source := txt "큐레이티드"
  rank := 1

/-- A fused result with a different identity pair but the same composite key
as `fuseA` (`"A" + "_" + "B_C" = "A_B" + "_" + "C"`). -/
def fuseB : SearchResult where
  case_id := txt "b"
  case_number := txt "A"
  case_name := txt "B_C"
  court_code := txt ""
  final_date := txt ""
  input := txt ""
  output := txt ""
  data_type := txt "t"
  similarity := mkRat 8 10
  source := txt "허깅페이스"
  rank := 1

/-- A curated result sharing its identity pair with `dupBulk`. -/
def dupCur : SearchResult where
  case_id := txt "c"
  case_number := txt "2019도11772"
  case_name := txt "판례"
  court_code := txt ""
  final_date := txt ""
  input := txt ""
  output := txt ""
  data_type := txt "t"
  similarity := mkRat 2 10
  source := txt "큐레이티드"
  rank := 1

/-- A bulk result sharing its identity pair with `dupCur` but with a higher
similarity score. -/
def dupBulk : SearchResult where
  case_id := txt "d"
  case_number := txt "2019도11772"
  case_name := txt "판례"
  court_code := txt ""
  final_date := txt ""
  input := txt ""
  output := txt ""
  data_type := txt "t"
  similarity := mkRat 9 10
  source := txt "허깅페이스"
  rank := 1

/-- An AI oracle that never finds anything (models a failed external call). -/
def aiOracleNone : Text → VerifyResult := fun _ =>
  { caseExists := false, title := none, court := none, date := none,
    case_type := none, source := none, message := none }

/-- First of two tied candidates for the stable-sort check. -/
def tieRow0 : Row where
  id := txt "t0"
  case_number := txt "c0"
  case_name := txt "n0"
  court_code := txt ""
  final_date := txt ""
  input := txt ""
  output := txt ""
  data_type := txt "t"

/-- Second of two tied candidates for the stable-sort check. -/
def tieRow1 : Row where
  id := txt "t1"
  case_number := txt "c1"
  case_name := txt "n1"
  court_code := txt ""
  final_date := txt ""
  input := txt ""
  output := txt ""
  data_type := txt "t"

/-- A bulk-corpus row with no keyword overlap with the query `"zz"`. -/
def rowBig0 : Row where
  id := txt "r0"
  case_number := txt "c0"
  case_name := txt "n0"
  court_code := txt ""
  final_date := txt ""
  input := txt "a"
  output := txt "bb"
  data_type := txt "t"

/-- A second keyword-free bulk-corpus row with a longer embedded text. -/
def rowBig1 : Row where
  id := txt "r1"
  case_number := txt "c1"
  case_name := txt "n1"
  court_code := txt ""
  final_date := txt ""
  input := txt "a"
  output := txt "bbbbbb"
  data_type := txt "t"

/-- A bulk corpus with 1001 rows, one more than the sampling cap of
`_search_in_dataframe`. -/
def bigDf : List Row := List.replicate 1000 rowBig0 ++ [rowBig1]

/-- A sampler that returns the first `n` rows: one valid behaviour of
`DataFrame.sample(n)`. -/
def sTake : ℕ → List Row → List Row := fun n rows => rows.take n

/-- A sampler that returns the last `n` rows: another valid behaviour of
`DataFrame.sample(n)`. -/
def sDrop : ℕ → List Row → List Row := fun n rows => rows.drop (rows.length - n)

/-- A concrete deterministic encoder instance (text length as a rational). -/
def encLen : Text → ℚ := fun t => (t.length : ℚ)

/-- A concrete similarity-function instance (returns the candidate vector
itself, which for `encLen` is the embedded text length). -/
def cosSnd : ℚ → ℚ → ℚ := fun _ v => v

/-! ## Theorems -/

/-- C2 counterexample: for `top_k = 5` the fusion requests
`curatedRequestCount 5 = 5 // 2 + 1 = 3` curated results, while
`ceil(5/2) + 1 = 4`, so the claimed count is wrong for odd `top_k`. -/
theorem C2_counterexample :
    curatedRequestCount 5 = 3 ∧ (5 + 1) / 2 + 1 = 4 ∧
      curatedRequestCount 5 ≠ (5 + 1) / 2 + 1 := by
  decide

/-- C2 (amended): `search_similar_cases` requests `top_k // 2 + 1` (floor
division) results from the curated source; this agrees with
`ceil(top_k/2) + 1` exactly when `top_k` is even. -/
theorem C2_curated_request_floor (k : ℕ) :
    curatedRequestCount k = k / 2 + 1 ∧
      (curatedRequestCount k = (k + 1) / 2 + 1 ↔ k % 2 = 0) := by
  unfold curatedRequestCount
  omega

/-- C3: the code contradicts the claimed prefilter scoring.  The query
`"xx"` contains no legal keyword (`"법"` is not a substring of it), and the
candidate `rowC3` matches the query in no other way, yet its keyword score
is 2, not 0: the Python condition
`keyword in query_lower and keyword in input_text or keyword in output_text`
awards +2 whenever the keyword occurs in the output text alone. -/
theorem C3_keyword_score_bug :
    keywordScore (txt "xx") rowC3 = 2 ∧ infixOfB (txt "법") (txt "xx") = false ∧
      (∀ kw ∈ legalKeywords, infixOfB kw (txt "xx") = false) := by
  decide

/-- C4: every result returned by the similarity-ranking stage has
`similarity_score` at least the threshold of its source, which is
`0.05 = 5/100` for the curated source and `0.1 = 1/10` for every other
source; below-threshold candidates are skipped. -/
theorem C4_threshold_cutoff (rows : List Row) (sims : List ℚ) (k : ℕ) (src : Text) :
    minSimilarity curatedLabel = mkRat 5 100 ∧
      (src ≠ curatedLabel → minSimilarity src = mkRat 1 10) ∧
      ∀ r ∈ rankResults rows sims k src, minSimilarity src ≤ r.similarity := by
  refine ⟨by simp [minSimilarity], fun h => by simp [minSimilarity, h], ?_⟩
  intro r hr
  simp only [rankResults, List.mem_filterMap] at hr
  obtain ⟨p, -, hf⟩ := hr
  revert hf
  cases hrow : rows.get? p.2 <;> cases hsim : sims.get? p.2 <;> intro hf <;>
    simp only at hf
  · exact absurd hf (by simp)
  · exact absurd hf (by simp)
  · exact absurd hf (by simp)
  · split at hf
    · exact absurd hf (by simp)
    · cases hf
      simpa [mkResult] using le_of_not_lt (by assumption)

/-- C4 witness: a concrete retained result meets the bulk threshold. -/
theorem C4_threshold_cutoff_witness :
    minSimilarity bulkLabel ≤ (mkResult sampleRow 4 bulkLabel 1).similarity :=
  (C4_threshold_cutoff [sampleRow] [4] 1 bulkLabel).2.2
    (mkResult sampleRow 4 bulkLabel 1) (by decide)

/-- C5 counterexample: with the encoder unavailable, a keyword-matching query
over a non-empty corpus produces the empty result list — a hard empty
result, not a degraded keyword/lexical ranking.  (`sampleRow` matches the
query `"사기"` with keyword score 6.) -/
theorem C5_counterexample :
    (searchInDataframe (V := ℚ) none cosSnd sTake [sampleRow] (txt "사기") 5 none
        curatedLabel []).1 = [] ∧
      [sampleRow] ≠ ([] : List Row) ∧ 0 < keywordScore (txt "사기") sampleRow := by
  decide

/-- C5 (amended): whenever the embedding encoder failed to initialize
(`self.encoder is None`), `_search_in_dataframe` returns the empty result
list for every corpus and query, leaving the cache untouched; no keyword or
Jaccard fallback ranking is attempted. -/
theorem C5_encoder_none_empty (V : Type) (cos : V → V → ℚ)
    (sampler : ℕ → List Row → List Row) (df : List Row) (query : Text)
    (k : ℕ) (ct : Option Text) (src : Text) (cache : Cache V) :
    searchInDataframe none cos sampler df query k ct src cache = ([], cache, []) :=
  rfl

/-- C8 counterexample: the result of verifying `"2019도11772"` against the
local table carries no `source` key at all (modelled as `none`), so it does
not carry `source = LOCAL`. -/
theorem C8_counterexample :
    ((verifyCaseNumber aiOracleNone true (txt "2019도11772")).1.source = none) ∧
      (verifyCaseNumber aiOracleNone true (txt "2019도11772")).1.caseExists = true := by
  decide

/-- C8 (amended): verifying `"2019도11772"` hits the local table and returns
`exists = true` with court `"대법원"`, terminating without invoking the AI
fallback (the outcome is independent of the oracle and of the
`use_ai_search` flag, and the invoked-AI indicator is `false`); the result
dict however contains no `source` key. -/
theorem C8_local_hit (aiOracle : Text → VerifyResult) (useAi : Bool) :
    verifyCaseNumber aiOracle useAi (txt "2019도11772") =
      ({ caseExists := true, title := some (txt "음란물 유포죄 관련 판례"),
         court := some (txt "대법원"), date := some (txt "2019-12-26"),
         case_type := some (txt "형사"), source := none, message := none }, false) :=
  rfl

/-- C10: the dedup key is the string concatenation
`case_number + "_" + case_name`, which identifies the distinct identity
pairs `("A_B", "C")` and `("A", "B_C")`; the fusion therefore drops the
later record as a duplicate even though its pair is different. -/
theorem C10_key_collision :
    pairOf fuseA ≠ pairOf fuseB ∧ caseKey fuseA = caseKey fuseB ∧
      fuseResults [fuseA, fuseB] 5 = [{ fuseA with rank := 1 }] := by
  decide

/-- C6 counterexample: two candidates with the identical score `1/2` are
ranked in reversed input order: `argsort`-then-reverse puts candidate 1
first (rank 1) and candidate 0 second (rank 2), so the earlier candidate
receives the larger rank.  (On a two-element array the real `argsort` is
deterministic — introsort degenerates to insertion sort — so this instance
reflects the actual program behaviour.) -/
theorem C6_counterexample :
    topIndices [mkRat 1 2, mkRat 1 2] 2 = [1, 0] ∧
      rankResults [tieRow0, tieRow1] [mkRat 1 2, mkRat 1 2] 2 bulkLabel =
        [mkResult tieRow1 (mkRat 1 2) bulkLabel 1,
         mkResult tieRow0 (mkRat 1 2) bulkLabel 2] := by
  decide

/-- Every element of the dedup loop's output is either from the accumulator
or is an input element whose key is fresh and has no earlier occurrence:
the "first occurrence wins" property of the loop. -/
theorem fuseLoop_mem (k : ℕ) (l : List SearchResult) :
    ∀ (seen : List Text) (acc : List SearchResult) (r : SearchResult),
      r ∈ fuseLoop k l seen acc →
      r ∈ acc ∨ (caseKey r ∉ seen ∧ ∃ l1 l2, l = l1 ++ r :: l2 ∧
        ∀ x ∈ l1, caseKey x ≠ caseKey r) := by
  induction l with
  | nil =>
    intro seen acc r h
    simp only [fuseLoop] at h
    exact Or.inl h
  | cons x rest ih =>
    intro seen acc r h
    simp only [fuseLoop] at h
    split_ifs at h with h1 h2
    · rcases ih seen acc r h with h' | ⟨hns, l1, l2, heq, hfst⟩
      · exact Or.inl h'
      · refine Or.inr ⟨hns, x :: l1, l2, by rw [heq, List.cons_append], ?_⟩
        intro y hy
        rcases List.mem_cons.mp hy with rfl | hy'
        · exact fun hk => hns (hk ▸ h1)
        · exact hfst y hy'
    · rcases List.mem_append.mp h with h' | h'
      · exact Or.inl h'
      · rcases List.mem_singleton.mp h' with rfl
        exact Or.inr ⟨h1, [], rest, rfl, by simp⟩
    · rcases ih (caseKey x :: seen) (acc ++ [x]) r h with h' | ⟨hns, l1, l2, heq, hfst⟩
      · rcases List.mem_append.mp h' with h'' | h''
        · exact Or.inl h''
        · rcases List.mem_singleton.mp h'' with rfl
          exact Or.inr ⟨h1, [], rest, rfl, by simp⟩
      · have hns' : caseKey r ∉ seen := fun hc => hns (List.mem_cons_of_mem _ hc)
        have hne : caseKey r ≠ caseKey x := fun hc => hns (hc ▸ List.mem_cons_self _ _)
        refine Or.inr ⟨hns', x :: l1, l2, by rw [heq, List.cons_append], ?_⟩
        intro y hy
        rcases List.mem_cons.mp hy with rfl | hy'
        · exact fun hk => hne hk.symm
        · exact hfst y hy'

/-- The dedup loop never emits two results with the same key. -/
theorem fuseLoop_keys_nodup (k : ℕ) (l : List SearchResult) :
    ∀ (seen : List Text) (acc : List SearchResult),
      ((acc.map caseKey).Nodup) → (∀ a ∈ acc, caseKey a ∈ seen) →
      ((fuseLoop k l seen acc).map caseKey).Nodup := by
  induction l with
  | nil =>
    intro seen acc h1 _h2
    simpa only [fuseLoop] using h1
  | cons x rest ih =>
    intro seen acc h1 h2
    simp only [fuseLoop]
    split_ifs with hx hk
    · exact ih seen acc h1 h2
    · have hxn : caseKey x ∉ acc.map caseKey := fun hc => by
        rcases List.mem_map.mp hc with ⟨a, ha, hak⟩
        exact hx (hak ▸ h2 a ha)
      rw [List.map_append]
      exact List.Nodup.append h1 (List.nodup_singleton _)
        (fun b hb hbs => hxn (List.mem_singleton.mp hbs ▸ hb))
    · have hxn : caseKey x ∉ acc.map caseKey := fun hc => by
        rcases List.mem_map.mp hc with ⟨a, ha, hak⟩
        exact hx (hak ▸ h2 a ha)
      refine ih (caseKey x :: seen) (acc ++ [x]) ?_ ?_
      · rw [List.map_append]
        exact List.Nodup.append h1 (List.nodup_singleton _)
          (fun b hb hbs => hxn (List.mem_singleton.mp hbs ▸ hb))
      · intro a ha
        rcases List.mem_append.mp ha with h | h
        · exact List.mem_cons_of_mem _ (h2 a h)
        · rcases List.mem_singleton.mp h with rfl
          exact List.mem_cons_self _ _

/-- Renumbering ranks does not change the identity pairs of the results. -/
theorem renumber_map_pairOf (l : List SearchResult) :
    (renumber l).map pairOf = l.map pairOf := by
  simp only [renumber, List.map_map]
  have h : (pairOf ∘ fun p : ℕ × SearchResult => { p.2 with rank := p.1 + 1 }) =
      (pairOf ∘ Prod.snd) := rfl
  rw [h, ← List.map_map, List.enum_map_snd]

/-- Every renumbered result is an original result with its rank replaced. -/
theorem renumber_mem {l : List SearchResult} {r : SearchResult}
    (h : r ∈ renumber l) : ∃ x ∈ l, r = { x with rank := r.rank } := by
  simp only [renumber, List.mem_map] at h
  obtain ⟨p, hp, rfl⟩ := h
  have hx : p.2 ∈ l := by
    rw [← List.enum_map_snd l]
    exact List.mem_map_of_mem _ hp
  exact ⟨p.2, hx, rfl⟩

/-- C1: fused output of `search_similar_cases` (curated results concatenated
first).  (a) no two fused results share an identity pair
`(case_number, case_name)`; (b) every fused result is the first occurrence
of its dedup key in the concatenation, kept verbatim up to its new rank,
regardless of score; (c) if some curated result has the same identity pair
as a fused result, then that fused result is (up to rank) a curated result:
when both sources share a pair, the curated instance is the one kept. -/
theorem C1_fusion_dedup (curRes bulkRes : List SearchResult) (k : ℕ) :
    ((fuseResults (curRes ++ bulkRes) k).map pairOf).Nodup ∧
    (∀ r ∈ fuseResults (curRes ++ bulkRes) k,
      ∃ l1 l2 x, curRes ++ bulkRes = l1 ++ x :: l2 ∧ r = { x with rank := r.rank } ∧
        ∀ y ∈ l1, caseKey y ≠ caseKey x) ∧
    (∀ r ∈ fuseResults (curRes ++ bulkRes) k,
      (∃ c ∈ curRes, pairOf c = pairOf r) →
      ∃ c ∈ curRes, r = { c with rank := r.rank }) := by
  have hkeys := fuseLoop_keys_nodup k (curRes ++ bulkRes) [] [] (by simp) (by simp)
  refine ⟨?_, ?_, ?_⟩
  · rw [fuseResults, renumber_map_pairOf]
    have h2 : (fuseLoop k (curRes ++ bulkRes) [] []).map caseKey =
        ((fuseLoop k (curRes ++ bulkRes) [] []).map pairOf).map
          (fun p => p.1 ++ '_' :: p.2) := by
      rw [List.map_map]; rfl
    exact List.Nodup.of_map _ (h2 ▸ hkeys)
  · intro r hr
    obtain ⟨x, hxout, hrx⟩ := renumber_mem hr
    rcases fuseLoop_mem k (curRes ++ bulkRes) [] [] x hxout with h' | ⟨_, l1, l2, heq, hfst⟩
    · exact absurd h' (List.not_mem_nil x)
    · exact ⟨l1, l2, x, heq, hrx, hfst⟩
  · rintro r hr ⟨c, hc, hpair⟩
    obtain ⟨x, hxout, hrx⟩ := renumber_mem hr
    rcases fuseLoop_mem k (curRes ++ bulkRes) [] [] x hxout with h' | ⟨_, l1, l2, heq, hfst⟩
    · exact absurd h' (List.not_mem_nil x)
    · have hpx : pairOf c = pairOf x := by rw [hpair, hrx]; rfl
      have hkey : caseKey c = caseKey x := by
        have h1 : caseKey c = (fun p : Text × Text => p.1 ++ '_' :: p.2) (pairOf c) := rfl
        have h2 : caseKey x = (fun p : Text × Text => p.1 ++ '_' :: p.2) (pairOf x) := rfl
        rw [h1, h2, hpx]
      rcases List.append_eq_append_iff.mp heq with ⟨a', hl1, _⟩ | ⟨c', hcur, hxl⟩
      · exact absurd hkey (hfst c (hl1 ▸ List.mem_append_left a' hc))
      · cases c' with
        | nil =>
          rw [List.append_nil] at hcur
          exact absurd hkey (hfst c (hcur ▸ hc))
        | cons y c'' =>
          have hxy : x = y := by
            rw [List.cons_append] at hxl
            exact (List.cons.injEq _ _ _ _ ▸ hxl).1
          refine ⟨x, ?_, hrx⟩
          rw [hcur, hxy]
          exact List.mem_append_right _ (List.mem_cons_self y c'')

/-- C1 witness: with one curated and one bulk result sharing the pair
`("2019도11772", "판례")`, the fused instance of that pair is the curated
one (despite the bulk instance's higher score). -/
theorem C1_fusion_dedup_witness :
    ∃ c ∈ [dupCur], ({ dupCur with rank := 1 } : SearchResult) =
      { c with rank := ({ dupCur with rank := 1 } : SearchResult).rank } :=
  (C1_fusion_dedup [dupCur] [dupBulk] 5).2.2 { dupCur with rank := 1 }
    (by decide) ⟨dupCur, by decide, by decide⟩

/-- C6 (amended): the original-order tie-break guarantee is false, and on
the two-candidate instances — where the modelled `argsort` agrees with the
real one, see `argsortAsc` — the ranking provably emits ties in reversed
order: for every score `v` meeting the source's threshold and every
`top_k ≥ 2`, two candidates tied at `v` come out as later-candidate rank 1,
earlier-candidate rank 2 (the ascending `argsort` output is reversed by
`[::-1]`).  For larger candidate sets the default `numpy.argsort` leaves
the order of equal scores unspecified, so no original-order guarantee
holds there either. -/
theorem C6_pair_tie_reversed (r0 r1 : Row) (v : ℚ) (src : Text) (k : ℕ)
    (hv : minSimilarity src ≤ v) (hk : 2 ≤ k) :
    topIndices [v, v] k = [1, 0] ∧
    rankResults [r0, r1] [v, v] k src =
      [mkResult r1 v src 1, mkResult r0 v src 2] := by
  have hsort : argsortAsc [v, v] = [0, 1] := by
    simp [argsortAsc, List.insertionSort, List.orderedInsert, simLE, List.enum,
      List.enumFrom]
  have hk0 : ¬ (k = 0) := by omega
  have h2k : 2 - k = 0 := by omega
  have htop : topIndices [v, v] k = [1, 0] := by
    simp [topIndices, hsort, hk0, h2k]
  refine ⟨htop, ?_⟩
  simp [rankResults, htop, List.enum, List.enumFrom, not_lt.mpr hv]

/-- C6 witness: two candidates tied at score 4 under the curated threshold
with `top_k = 3` come out in reversed order with reversed ranks. -/
theorem C6_pair_tie_reversed_witness :
    topIndices [4, 4] 3 = [1, 0] ∧
    rankResults [tieRow0, tieRow1] [4, 4] 3 curatedLabel =
      [mkResult tieRow1 4 curatedLabel 1, mkResult tieRow0 4 curatedLabel 2] :=
  C6_pair_tie_reversed tieRow0 tieRow1 4 curatedLabel 3 (by decide) (by decide)

/-- Cache lookup on a freshly inserted entry. -/
theorem cacheLookup_cons {V : Type} (a : Text) (v : V) (c : Cache V) (k : Text) :
    cacheLookup ((a, v) :: c) k = if a = k then some v else cacheLookup c k := by
  by_cases h : a = k <;> simp [cacheLookup, List.find?_cons, h]

/-- The embedding walk only adds entries: existing cache answers survive. -/
theorem collectEmbeddings_preserves {V : Type} (enc : Text → V) (src : Text) :
    ∀ (l : List Row) (c : Cache V) (k : Text) (v : V),
      cacheLookup c k = some v →
      cacheLookup (collectEmbeddings enc src l c).2.1 k = some v := by
  intro l
  induction l with
  | nil => intro c k v h; simpa [collectEmbeddings] using h
  | cons row rest ih =>
    intro c k v h
    simp only [collectEmbeddings]
    cases hl : cacheLookup c (cacheKeyOf row src) with
    | some w => exact ih c k v h
    | none =>
      have hk : cacheKeyOf row src ≠ k := fun he => by rw [he, h] at hl; cases hl
      refine ih _ k v ?_
      rw [cacheLookup_cons]
      simp [hk, h]

/-- Keys freshly encoded by the embedding walk were absent from the cache it
started with: a cached key is never re-encoded. -/
theorem collectEmbeddings_fresh {V : Type} (enc : Text → V) (src : Text) :
    ∀ (l : List Row) (c : Cache V) (k : Text),
      k ∈ (collectEmbeddings enc src l c).2.2 → cacheLookup c k = none := by
  intro l
  induction l with
  | nil => intro c k h; simp [collectEmbeddings] at h
  | cons row rest ih =>
    intro c k h
    simp only [collectEmbeddings] at h
    cases hl : cacheLookup c (cacheKeyOf row src) with
    | some w =>
      rw [hl] at h
      exact ih c k h
    | none =>
      rw [hl] at h
      simp only [List.mem_cons] at h
      rcases h with rfl | h
      · exact hl
      · have h2 := ih _ k h
        rw [cacheLookup_cons] at h2
        by_cases he : cacheKeyOf row src = k
        · rw [if_pos he] at h2; cases h2
        · rwa [if_neg he] at h2

/-- Re-running the embedding walk on the cache it produced returns the same
embeddings and the same cache, and encodes nothing. -/
theorem collectEmbeddings_stable {V : Type} (enc : Text → V) (src : Text) :
    ∀ (l : List Row) (c : Cache V),
      collectEmbeddings enc src l (collectEmbeddings enc src l c).2.1 =
        ((collectEmbeddings enc src l c).1, (collectEmbeddings enc src l c).2.1, []) := by
  intro l
  induction l with
  | nil => intro c; simp [collectEmbeddings]
  | cons row rest ih =>
    intro c
    simp only [collectEmbeddings]
    cases hl : cacheLookup c (cacheKeyOf row src) with
    | some w =>
      simp only []
      have hpres : cacheLookup (collectEmbeddings enc src rest c).2.1
          (cacheKeyOf row src) = some w :=
        collectEmbeddings_preserves enc src rest c _ w hl
      rw [hpres, ih c]
    | none =>
      simp only []
      have hself : cacheLookup ((cacheKeyOf row src, enc (embedTextOf row)) :: c)
          (cacheKeyOf row src) = some (enc (embedTextOf row)) := by
        rw [cacheLookup_cons, if_pos rfl]
      have hpres : cacheLookup
          (collectEmbeddings enc src rest ((cacheKeyOf row src, enc (embedTextOf row)) :: c)).2.1
          (cacheKeyOf row src) = some (enc (embedTextOf row)) :=
        collectEmbeddings_preserves enc src rest _ _ _ hself
      rw [hpres, ih]

/-- The candidate-selection stage does not consult the sampler when the
keyword prefilter matched or when the source is the curated one. -/
theorem selectCandidates_sampler_irrel (s1 s2 : ℕ → List Row → List Row)
    (ql : Text) (df : List Row) (k : ℕ) (src : Text)
    (h : keywordMatchesOf ql df ≠ [] ∨ src = curatedLabel) :
    selectCandidates s2 ql df k src = selectCandidates s1 ql df k src := by
  simp only [selectCandidates]
  split_ifs with h1 h2
  · rfl
  · rfl
  · rcases h with h | h
    · exact absurd h h1
    · exact absurd h h2

/-- C7 (amended): provided the candidate set is selected deterministically —
the keyword prefilter matched at least one row, or the source is the curated
one (so the random-sampling fallback is not taken) — running the same search
again on the cache produced by a first run returns exactly the same results
(hence identical `similarity_score` values) and the same cache, and encodes
nothing; moreover every key the first run encoded was absent from its
starting cache, so a cached key is never re-encoded. -/
theorem C7_cache_consistency {V : Type} (enc : Text → V) (cos : V → V → ℚ)
    (s1 s2 : ℕ → List Row → List Row) (df : List Row) (query : Text) (k : ℕ)
    (ct : Option Text) (src : Text) (c0 : Cache V)
    (h : keywordMatchesOf (toLowerT query) (caseTypeFilter df ct) ≠ [] ∨
      src = curatedLabel) :
    searchInDataframe (some enc) cos s2 df query k ct src
        (searchInDataframe (some enc) cos s1 df query k ct src c0).2.1 =
      ((searchInDataframe (some enc) cos s1 df query k ct src c0).1,
       (searchInDataframe (some enc) cos s1 df query k ct src c0).2.1, []) ∧
    ∀ key ∈ (searchInDataframe (some enc) cos s1 df query k ct src c0).2.2,
      cacheLookup c0 key = none := by
  by_cases hdf : df = []
  · constructor
    · simp [searchInDataframe, hdf]
    · simp [searchInDataframe, hdf]
  · by_cases hsdf : caseTypeFilter df ct = []
    · constructor
      · simp [searchInDataframe, hdf, hsdf]
      · simp [searchInDataframe, hdf, hsdf]
    · have hfilter := selectCandidates_sampler_irrel s1 s2 (toLowerT query)
        (caseTypeFilter df ct) k src h
      simp only [searchInDataframe, if_neg hdf, if_neg hsdf, hfilter]
      set F := selectCandidates s1 (toLowerT query) (caseTypeFilter df ct) k src with hF
      set R := collectEmbeddings enc src F c0 with hR
      have hstable : collectEmbeddings enc src F R.2.1 = (R.1, R.2.1, []) := by
        rw [hR]
        exact collectEmbeddings_stable enc src F c0
      have hfresh : ∀ key ∈ R.2.2, cacheLookup c0 key = none := fun key hk =>
        collectEmbeddings_fresh enc src F c0 key (hR ▸ hk)
      by_cases hE : R.1.isEmpty
      · constructor
        · simp [hE, hstable]
        · intro key hk
          rw [if_pos hE] at hk
          exact hfresh key hk
      · constructor
        · simp [hE, hstable]
        · intro key hk
          rw [if_neg hE] at hk
          exact hfresh key hk

/-- C7 witness: a concrete keyword-matching search replayed on its own cache
returns identical results and encodes nothing. -/
theorem C7_cache_consistency_witness :
    searchInDataframe (some encLen) cosSnd sDrop [sampleRow] (txt "사기") 5 none
        bulkLabel
        (searchInDataframe (some encLen) cosSnd sTake [sampleRow] (txt "사기") 5
          none bulkLabel []).2.1 =
      ((searchInDataframe (some encLen) cosSnd sTake [sampleRow] (txt "사기") 5
          none bulkLabel []).1,
       (searchInDataframe (some encLen) cosSnd sTake [sampleRow] (txt "사기") 5
          none bulkLabel []).2.1, []) ∧
    ∀ key ∈ (searchInDataframe (some encLen) cosSnd sTake [sampleRow] (txt "사기")
        5 none bulkLabel []).2.2,
      cacheLookup ([] : Cache ℚ) key = none :=
  C7_cache_consistency encLen cosSnd sTake sDrop [sampleRow] (txt "사기") 5 none
    bulkLabel [] (Or.inl (by decide))

set_option maxRecDepth 10000 in
/-- C7 counterexample: on a 1001-row bulk corpus and a query with no keyword
match, the candidate pool exceeds the 1000-row sampling cap, so each call
draws a fresh random subset; for two draws that are both valid
`DataFrame.sample` behaviours (`sTake` and `sDrop` satisfy `SampleSpec`),
the second run — starting from the cache the first run populated — returns
different `similarity_score` values. -/
theorem C7_counterexample :
    SampleSpec sTake ∧ SampleSpec sDrop ∧
    (searchInDataframe (some encLen) cosSnd sDrop bigDf (txt "zz") 5 none bulkLabel
        (searchInDataframe (some encLen) cosSnd sTake bigDf (txt "zz") 5 none
          bulkLabel []).2.1).1.map SearchResult.similarity ≠
      (searchInDataframe (some encLen) cosSnd sTake bigDf (txt "zz") 5 none
        bulkLabel []).1.map SearchResult.similarity := by
  refine ⟨?_, ?_, ?_⟩
  · intro n rows hn
    refine ⟨?_, (List.take_sublist n rows).subperm⟩
    simp only [sTake, List.length_take]
    omega
  · intro n rows hn
    refine ⟨?_, (List.drop_sublist _ rows).subperm⟩
    simp only [sDrop, List.length_drop]
    omega
  · decide

/-- `takeWhile`/`dropWhile` split around the first failing element. -/
theorem takeWhile_all_append {p : Char → Bool} {xs : Text}
    (hxs : ∀ c ∈ xs, p c) {y : Char} (hy : ¬ p y) (rest : Text) :
    (xs ++ y :: rest).takeWhile p = xs ∧ (xs ++ y :: rest).dropWhile p = y :: rest := by
  induction xs with
  | nil => simp [List.takeWhile_cons, List.dropWhile_cons, hy]
  | cons a t ih =>
    have ha : p a := hxs a (List.mem_cons_self a t)
    have ht : ∀ c ∈ t, p c := fun c hc => hxs c (List.mem_cons_of_mem a hc)
    have := ih ht
    simp [List.takeWhile_cons, List.dropWhile_cons, ha, this.1, this.2]

/-- Everything consumed by a successful article parse is a digit, `의`, or
`조`. -/
theorem parseArticle_chars {t a : Text} (h : parseArticle t = some a) :
    ∀ c ∈ t, (c.isDigit ∨ c = '의' ∨ c = '조') := by
  simp only [parseArticle] at h
  split_ifs at h with hd1
  replace h := h.symm
  split at h
  · next c r2 heq =>
    split_ifs at h with hc hcond hcj
    · obtain ⟨hd2, hr3⟩ := hcond
      intro x hx
      have ht : t = t.takeWhile Char.isDigit ++ c :: r2 := by
        rw [← heq, List.takeWhile_append_dropWhile]
      rw [ht] at hx
      rcases List.mem_append.mp hx with h1 | h1
      · exact Or.inl (List.mem_takeWhile_imp h1)
      · rcases List.mem_cons.mp h1 with rfl | h1
        · exact Or.inr (Or.inl hc)
        · have hr2 : r2 = r2.takeWhile Char.isDigit ++ ['조'] := by
            rw [← hr3, List.takeWhile_append_dropWhile]
          rw [hr2] at h1
          rcases List.mem_append.mp h1 with h2 | h2
          · exact Or.inl (List.mem_takeWhile_imp h2)
          · rcases List.mem_singleton.mp h2 with rfl
            exact Or.inr (Or.inr rfl)
    · intro x hx
      have ht : t = t.takeWhile Char.isDigit ++ c :: r2 := by
        rw [← heq, List.takeWhile_append_dropWhile]
      rw [ht] at hx
      rcases List.mem_append.mp hx with h1 | h1
      · exact Or.inl (List.mem_takeWhile_imp h1)
      · rcases List.mem_cons.mp h1 with rfl | h1
        · exact Or.inr (Or.inr hcj.1)
        · rw [hcj.2] at h1
          cases h1
  · next heq => cases h

/-- The article pattern accepts exactly the `digits 의 digits 조` shape and
returns the full sub-article string. -/
theorem parseArticle_exact {d1 d2 : Text} (h1 : d1 ≠ []) (h2 : d2 ≠ [])
    (hd1 : ∀ c ∈ d1, Char.isDigit c) (hd2 : ∀ c ∈ d2, Char.isDigit c) :
    parseArticle ((d1 ++ '의' :: d2) ++ ['조']) = some (d1 ++ '의' :: d2) := by
  have e1 : (d1 ++ '의' :: d2) ++ ['조'] = d1 ++ '의' :: (d2 ++ ['조']) := by simp
  have hsplit1 := takeWhile_all_append (p := Char.isDigit) hd1
    (by decide : ¬ ('의'.isDigit = true)) (d2 ++ ['조'])
  have hsplit2 := takeWhile_all_append (p := Char.isDigit) hd2
    (by decide : ¬ ('조'.isDigit = true)) ([] : Text)
  simp only [parseArticle, e1, hsplit1.1, hsplit1.2, if_neg h1]
  simp [hsplit2.1, hsplit2.2, h2]

/-- After the lazy split exactly at the law name, the suffix matcher returns
the full sub-article string. -/
theorem trySuffix_exact {d1 d2 : Text} (h1 : d1 ≠ []) (h2 : d2 ≠ [])
    (hd1 : ∀ c ∈ d1, Char.isDigit c) (hd2 : ∀ c ∈ d2, Char.isDigit c) :
    trySuffix ('제' :: ((d1 ++ '의' :: d2) ++ ['조'])) = some (d1 ++ '의' :: d2) := by
  have hws : isWsC '제' = false := by decide
  have hp := parseArticle_exact h1 h2 hd1 hd2
  rw [List.append_assoc, List.cons_append] at hp
  simp only [trySuffix, List.dropWhile_cons, hws]
  simp [hp]

/-- Any successful suffix match over a strictly longer remainder still
returns the full sub-article string: the separator space blocks every
earlier `제` from anchoring a match. -/
theorem trySuffix_sep {d1 d2 : Text} (h1 : d1 ≠ []) (h2 : d2 ≠ [])
    (hd1 : ∀ c ∈ d1, Char.isDigit c) (hd2 : ∀ c ∈ d2, Char.isDigit c) :
    ∀ (l : Text) (a : Text),
      trySuffix (l ++ ' ' :: '제' :: ((d1 ++ '의' :: d2) ++ ['조'])) = some a →
      a = d1 ++ '의' :: d2 := by
  intro l
  induction l with
  | nil =>
    intro a h
    rw [List.nil_append] at h
    have hdw : (' ' :: '제' :: ((d1 ++ '의' :: d2) ++ ['조'])).dropWhile isWsC
        = '제' :: ((d1 ++ '의' :: d2) ++ ['조']) := by
      rw [List.dropWhile_cons, show isWsC ' ' = true from by decide]
      simp only [if_true]
      rw [List.dropWhile_cons, show isWsC '제' = false from by decide]
      simp
    have ht : trySuffix (' ' :: '제' :: ((d1 ++ '의' :: d2) ++ ['조'])) =
        parseArticle ((d1 ++ '의' :: d2) ++ ['조']) := by
      simp only [trySuffix, hdw]
      simp
    rw [ht, parseArticle_exact h1 h2 hd1 hd2] at h
    injection h with h
    exact h.symm
  | cons c t ih =>
    intro a h
    rw [List.cons_append] at h
    by_cases hw : isWsC c
    · have ht : trySuffix (c :: (t ++ ' ' :: '제' :: ((d1 ++ '의' :: d2) ++ ['조']))) =
          trySuffix (t ++ ' ' :: '제' :: ((d1 ++ '의' :: d2) ++ ['조'])) := by
        simp only [trySuffix, List.dropWhile_cons, hw, if_true]
      rw [ht] at h
      exact ih a h
    · have hdw : ((c :: (t ++ ' ' :: '제' :: ((d1 ++ '의' :: d2) ++ ['조']))).dropWhile
          isWsC) = c :: (t ++ ' ' :: '제' :: ((d1 ++ '의' :: d2) ++ ['조'])) := by
        rw [List.dropWhile_cons]
        simp [hw]
      have ht : trySuffix (c :: (t ++ ' ' :: '제' :: ((d1 ++ '의' :: d2) ++ ['조']))) =
          if c = '제' then parseArticle (t ++ ' ' :: '제' :: ((d1 ++ '의' :: d2) ++ ['조']))
          else none := by
        simp only [trySuffix, hdw]
      rw [ht] at h
      split_ifs at h with hc
      exfalso
      have hchars := parseArticle_chars h
      have hsp : (' ' : Char) ∈ t ++ ' ' :: '제' :: ((d1 ++ '의' :: d2) ++ ['조']) :=
        List.mem_append_right _ (List.mem_cons_self _ _)
      rcases hchars ' ' hsp with hd | he | he
      · exact absurd hd (by decide)
      · exact absurd he (by decide)
      · exact absurd he (by decide)

/-- The lazy-prefix loop always finds a split on a well-formed statute
citation with a `의`-sub-article number, and every split it can return
carries the full sub-article string. -/
theorem lawMatchAux_article {d1 d2 : Text} (h1 : d1 ≠ []) (h2 : d2 ≠ [])
    (hd1 : ∀ c ∈ d1, Char.isDigit c) (hd2 : ∀ c ∈ d2, Char.isDigit c) :
    ∀ (L pre : Text), '\n' ∉ L →
      ∃ nm, lawMatchAux pre (L ++ ' ' :: '제' :: ((d1 ++ '의' :: d2) ++ ['조'])) =
        some (nm, d1 ++ '의' :: d2) := by
  intro L
  induction L with
  | nil =>
    intro pre _
    refine ⟨pre ++ [' '], ?_⟩
    rw [List.nil_append]
    simp only [lawMatchAux]
    rw [if_neg (by decide : ¬ (' ' = '\n'))]
    rw [trySuffix_exact h1 h2 hd1 hd2]
  | cons c t ih =>
    intro pre hnl
    have hc : ¬ (c = '\n') := fun hh => hnl (hh ▸ List.mem_cons_self c t)
    have hnl' : '\n' ∉ t := fun hh => hnl (List.mem_cons_of_mem c hh)
    rw [List.cons_append]
    simp only [lawMatchAux]
    rw [if_neg hc]
    cases hts : trySuffix (t ++ ' ' :: '제' :: ((d1 ++ '의' :: d2) ++ ['조'])) with
    | some a =>
      have ha : a = d1 ++ '의' :: d2 := trySuffix_sep h1 h2 hd1 hd2 t a hts
      exact ⟨pre ++ [c], by rw [ha]⟩
    | none =>
      exact ih (pre ++ [c]) hnl'

/-- C9: for every statute citation of the form
`<law name> 제<digits>의<digits>조` (a non-empty law name with no newline,
non-empty ASCII-digit runs), the citation parser recognizes a statute
article and returns the full `digits의digits` string as the article number,
preserving the `의N` sub-article suffix exactly; in particular
`"형법 제44의7조"` yields `article_number = "44의7"` and `"형법 제243조"`
yields `law_name = "형법"`, `article_number = "243"`. -/
theorem C9_sub_article_roundtrip :
    (∀ (L d1 d2 : Text), L ≠ [] → '\n' ∉ L → d1 ≠ [] → d2 ≠ [] →
      (∀ c ∈ d1, Char.isDigit c) → (∀ c ∈ d2, Char.isDigit c) →
      ∃ nm,
        lawMatch (L ++ ' ' :: '제' :: ((d1 ++ '의' :: d2) ++ ['조'])) =
          some (nm, d1 ++ '의' :: d2) ∧
        (validateLegalCitation
          (L ++ ' ' :: '제' :: ((d1 ++ '의' :: d2) ++ ['조']))).ctype =
            CitationType.law_article ∧
        (validateLegalCitation
          (L ++ ' ' :: '제' :: ((d1 ++ '의' :: d2) ++ ['조']))).article_number =
            some (d1 ++ '의' :: d2)) ∧
    validateLegalCitation (txt "형법 제44의7조") =
      { ctype := CitationType.law_article, law_name := some (txt "형법"),
        article_number := some (txt "44의7") } ∧
    validateLegalCitation (txt "형법 제243조") =
      { ctype := CitationType.law_article, law_name := some (txt "형법"),
        article_number := some (txt "243") } := by
  refine ⟨?_, by decide, by decide⟩
  intro L d1 d2 _hL hnl h1 h2 hd1 hd2
  obtain ⟨nm, hm⟩ := lawMatchAux_article h1 h2 hd1 hd2 L [] hnl
  have hlm : lawMatch (L ++ ' ' :: '제' :: ((d1 ++ '의' :: d2) ++ ['조'])) =
      some (nm, d1 ++ '의' :: d2) := hm
  have hlm2 := hlm
  rw [List.append_assoc, List.cons_append] at hlm2
  refine ⟨nm, hlm, ?_, ?_⟩ <;> simp [validateLegalCitation, hlm2]

/-- C9 witness: the general statement applied at `"형법 제44의7조"`. -/
theorem C9_sub_article_roundtrip_witness :
    ∃ nm,
      lawMatch (txt "형법" ++ ' ' :: '제' :: ((txt "44" ++ '의' :: txt "7") ++ ['조'])) =
        some (nm, txt "44" ++ '의' :: txt "7") ∧
      (validateLegalCitation
        (txt "형법" ++ ' ' :: '제' :: ((txt "44" ++ '의' :: txt "7") ++ ['조']))).ctype =
          CitationType.law_article ∧
      (validateLegalCitation
        (txt "형법" ++ ' ' :: '제' :: ((txt "44" ++ '의' :: txt "7") ++ ['조']))).article_number =
          some (txt "44" ++ '의' :: txt "7") :=
  C9_sub_article_roundtrip.1 (txt "형법") (txt "44") (txt "7") (by decide) (by decide)
    (by decide) (by decide) (by decide) (by decide)
